import Mathlib

/-!
Shallow embedding of the MIni-Hiring-Platform (TalentFlow) core:
the Dexie-backed collection store and query engine behind the MSW handlers
(src/api/handlers.js), and the optimistic mutation controllers of
src/pages/JobsPage.jsx and src/pages/CandidatesPage.jsx.

Records are modelled as structures, the stores as lists kept in primary-key
(insertion) order, which is exactly the iteration order Dexie uses for
toCollection() and for a where(field).equals(v) index scan when all matched
records share the same indexed value.  Handlers are pure functions from a
store (plus explicit parameters for the sampled Bernoulli failure trial and
the wall clock) to a response and an updated store.
-/

namespace TalentFlow

/-- Candidate pipeline stage ids, from db.js CANDIDATE_STAGES. -/
def STAGE_IDS : List String := ["applied", "screen", "tech", "offer", "hired", "rejected"]

/-- A record of the jobs table (db.js: "++id, &slug, title, status, order, createdAt"). -/
structure Job where
  id : Nat
  title : String
  slug : String
  status : String
  order : Nat
  description : String
  tags : List String
  createdAt : String
deriving Repr, DecidableEq

/-- A record of the candidates table (db.js: "++id, &email, name, stage, jobId, createdAt"). -/
structure Candidate where
  id : Nat
  name : String
  email : String
  stage : String
  jobId : Nat
  createdAt : String
  avatarUrl : String
deriving Repr, DecidableEq

/-- An assessment question (assessment documents are replaced wholesale, so the
    handlers never look inside; fields follow the builder shape). -/
structure Question where
  id : String
  label : String
  qtype : String
  options : List String
deriving Repr, DecidableEq

/-- An assessment section. -/
structure Section where
  id : String
  title : String
  description : String
  questions : List Question
deriving Repr, DecidableEq

/-- A record of the assessments table, keyed by jobId (db.js: "&jobId, title, sections"). -/
structure Assessment where
  jobId : Nat
  title : String
  sections : List Section
deriving Repr, DecidableEq

/-- A record of the assessmentResponses table (db.js: "++id, candidateId, jobId, createdAt"). -/
structure AssessmentResponse where
  id : Nat
  jobId : Nat
  candidateId : Nat
  answers : List (String × String)
  createdAt : String
deriving Repr, DecidableEq

/-- The whole Collection Store (Dexie database TalentFlowDB), each table in
    primary-key order. -/
structure Db where
  jobs : List Job
  candidates : List Candidate
  assessments : List Assessment
  assessmentResponses : List AssessmentResponse
deriving Repr, DecidableEq

/-- A non-2xx HTTP response produced by a handler: new HttpResponse(JSON.stringify(
    \x7bmessage\x7d), \x7bstatus\x7d). -/
structure ApiError where
  status : Nat
  message : String
deriving Repr, DecidableEq

/-! ## Query engine: GET /jobs -/

/-- The search predicate of the GET /jobs handler: case-insensitive prefix match
    on title or slug (handlers.js lines 35-41). -/
def jobMatchesSearch (search : String) (j : Job) : Bool :=
  j.title.toLower.startsWith search.toLower || j.slug.toLower.startsWith search.toLower

/-- Status equality filter of GET /jobs: where("status").equals(status) for a
    concrete status, toCollection() for "all" (handlers.js lines 29-33). -/
def statusFiltered (status : String) (db : List Job) : List Job :=
  if status != "all" then db.filter (fun j => j.status == status) else db

/-- Search filter of GET /jobs: applied only when the search string is nonempty
    (handlers.js lines 35-41). -/
def searchFiltered (search : String) (db : List Job) : List Job :=
  if search != "" then db.filter (jobMatchesSearch search) else db

/-- Stable insertion of one element into a list sorted by key: the element goes
    in front of the first position whose key is greater than or equal to its own,
    hence in front of later-arriving elements of equal key. -/
def insertKeyed {κ : Type} [LinearOrder κ] {α : Type} (key : α → κ) (x : α) : List α → List α
  | [] => [x]
  | y :: ys => if key x ≤ key y then x :: y :: ys else y :: insertKeyed key x ys

/-- Stable sort by a key, modelling Dexie Collection.sortBy(field), whose
    comparator returns 0 on equal field values and which relies on the (stable)
    Array.prototype.sort, so ties keep their iteration order. -/
def sortByKey {κ : Type} [LinearOrder κ] {α : Type} (key : α → κ) : List α → List α
  | [] => []
  | x :: xs => insertKeyed key x (sortByKey key xs)

/-- Response shape of GET /jobs. -/
structure JobsListing where
  jobs : List Job
  page : Nat
  pageSize : Nat
  total : Nat
  totalPages : Nat
deriving Repr, DecidableEq

/-- GET /jobs (handlers.js lines 15-59): status filter, then search filter, then
    count (total), then sortBy(sort), then slice((page-1)*pageSize, page*pageSize).
    The sort field is abstracted as a key function into a linearly ordered type
    (the app always passes sort="order", i.e. the key fun j => j.order).
    totalPages is Math.ceil(total / pageSize), written in natural division for
    a positive pageSize. -/
def listJobs {κ : Type} [LinearOrder κ] (key : Job → κ) (db : List Job)
    (search status : String) (page pageSize : Nat) : JobsListing :=
  let collection := statusFiltered status db
  let filtered := searchFiltered search collection
  let total := filtered.length
  let sorted := sortByKey key filtered
  let jobs := (sorted.drop ((page - 1) * pageSize)).take pageSize
  { jobs := jobs, page := page, pageSize := pageSize, total := total,
    totalPages := (total + pageSize - 1) / pageSize }

/-! ## Query engine: GET /candidates -/

/-- The search predicate of the GET /candidates handler: case-insensitive prefix
    match on name or email (handlers.js lines 184-190). -/
def candidateMatchesSearch (search : String) (c : Candidate) : Bool :=
  c.name.toLower.startsWith search.toLower || c.email.toLower.startsWith search.toLower

/-- Stage equality filter of GET /candidates (handlers.js lines 178-182). -/
def stageFiltered (stage : String) (db : List Candidate) : List Candidate :=
  if stage != "all" then db.filter (fun c => c.stage == stage) else db

/-- Search filter of GET /candidates. -/
def candidateSearchFiltered (search : String) (db : List Candidate) : List Candidate :=
  if search != "" then db.filter (candidateMatchesSearch search) else db

/-- Response shape of GET /candidates. -/
structure CandidatesListing where
  candidates : List Candidate
  page : Nat
  pageSize : Nat
  total : Nat
  totalPages : Nat
deriving Repr, DecidableEq

/-- GET /candidates (handlers.js lines 165-207): stage filter, then search
    filter, then count, then offset((page-1)*pageSize).limit(pageSize) in
    iteration order (no sort). -/
def listCandidates (db : List Candidate) (search stage : String)
    (page pageSize : Nat) : CandidatesListing :=
  let collection := stageFiltered stage db
  let filtered := candidateSearchFiltered search collection
  let total := filtered.length
  let candidates := (filtered.drop ((page - 1) * pageSize)).take pageSize
  { candidates := candidates, page := page, pageSize := pageSize, total := total,
    totalPages := (total + pageSize - 1) / pageSize }

/-! ## Write handlers

Every write handler first evaluates the Bernoulli failure trial
(simulateError) and on failure returns a 500 before reading the body or
touching any table.  The sampled trial outcome is passed in as the boolean
simFail; the wall clock (new Date().toISOString()) is passed in as now. -/

/-- The next auto-increment primary key of a Dexie "++id" table, given the ids
    already present (one past the largest). -/
def nextId (ids : List Nat) : Nat := ids.foldr max 0 + 1

/-- Largest order value in the jobs table, 0 when the table is empty: models
    db.jobs.orderBy("order").last() followed by (lastJob?.order || 0). -/
def maxOrder (jobs : List Job) : Nat := (jobs.map Job.order).foldr max 0

/-- Body of POST /jobs (JobFormModal sends title, slug, description, tags). -/
structure NewJobInput where
  title : String
  slug : String
  description : String
  tags : List String
deriving Repr, DecidableEq

/-- POST /jobs (handlers.js lines 61-83): on simulated failure a 500 without
    touching the store; otherwise stamps status="active", createdAt, and
    order = (largest existing order) + 1, and adds the record. -/
def createJob (db : Db) (simFail : Bool) (input : NewJobInput) (now : String) :
    Except ApiError Job × Db :=
  if simFail then (.error ⟨500, "Server failed to create job"⟩, db)
  else
    let newOrder := maxOrder db.jobs + 1
    let job : Job :=
      { id := nextId (db.jobs.map Job.id), title := input.title, slug := input.slug,
        status := "active", order := newOrder, description := input.description,
        tags := input.tags, createdAt := now }
    (.ok job, { db with jobs := db.jobs ++ [job] })

/-- A PATCH /jobs/:id body: any subset of the mutable job fields. -/
structure JobPatch where
  title : Option String := none
  slug : Option String := none
  status : Option String := none
  order : Option Nat := none
  description : Option String := none
  tags : Option (List String) := none
deriving Repr, DecidableEq

/-- Application of a patch body to a job record (Dexie Table.update changes). -/
def applyJobPatch (p : JobPatch) (j : Job) : Job :=
  { j with title := p.title.getD j.title, slug := p.slug.getD j.slug,
           status := p.status.getD j.status, order := p.order.getD j.order,
           description := p.description.getD j.description, tags := p.tags.getD j.tags }

/-- PATCH /jobs/:id (handlers.js lines 85-99): on simulated failure a 500;
    otherwise db.jobs.update(id, updates) — which patches the record with the
    given primary key and silently does nothing when no such record exists —
    and the response body \x7bid, ...updates\x7d, with no not-found branch. -/
def patchJob (db : Db) (simFail : Bool) (id : Nat) (patch : JobPatch) :
    Except ApiError (Nat × JobPatch) × Db :=
  if simFail then (.error ⟨500, "Failed to save changes"⟩, db)
  else
    (.ok (id, patch),
     { db with jobs := db.jobs.map fun j => if j.id == id then applyJobPatch patch j else j })

/-! ### PATCH /jobs/reorder -/

/-- One sanitized reorder update as built on handlers.js lines 132-135:
    \x7bkey: job.id, changes: \x7border: job.order\x7d\x7d.  The record deliberately has no
    field named id: the later transaction reads u.id off it, which in the
    source evaluates to undefined. -/
structure ReorderUpdate where
  key : Nat
  changesOrder : Nat
deriving Repr, DecidableEq

/-- Dexie Table.bulkUpdate on the jobs table: applies each \x7bkey, changes\x7d pair
    in sequence; keys not present in the table are ignored. -/
def bulkUpdateJobs (jobs : List Job) (ups : List ReorderUpdate) : List Job :=
  ups.foldl (fun acc u => acc.map fun j =>
    if j.id == u.key then { j with order := u.changesOrder } else j) jobs

/-- Dexie Table.update called with an invalid key: Dexie rejects a null or
    undefined key with "Invalid key provided ..." instead of resolving, so the
    call is an error, never a silent no-op.  The key argument is an Option to
    let the caller pass the undefined u.id of a ReorderUpdate as none. -/
def dexieUpdateOrder (jobs : List Job) (key : Option Nat) (ord : Option Nat) :
    Except String (List Job) :=
  match key with
  | none => .error "Invalid key provided. Keys must be of type string, number, Date or Array."
  | some k => .ok (jobs.map fun j => if j.id == k then { j with order := ord.getD j.order } else j)

/-- The body of the transaction on handlers.js lines 147-151: for every
    sanitized update u it calls db.jobs.update(u.id, \x7border: u.order\x7d); u is a
    \x7bkey, changes\x7d record, so both u.id and u.order are undefined, and every
    such call rejects.  The whole transaction therefore fails as soon as the
    update list is nonempty. -/
def reorderTransaction (jobs : List Job) : List ReorderUpdate → Except String (List Job)
  | [] => .ok jobs
  | _ :: _ => dexieUpdateOrder jobs none none

/-- The parsed body of a PATCH /jobs/reorder request: none models a JSON parse
    failure, some none a body whose orderedJobs is missing or not an array,
    and some (some pairs) an array of \x7bid, order\x7d pairs. -/
abbrev ReorderPayload : Type := Option (Option (List (Nat × Nat)))

/-- The PATCH /jobs/reorder handler as declared (handlers.js lines 102-162):
    simulated-failure check, JSON parse check, array/nonempty validation, then
    bulkUpdate of the sanitized \x7bkey, changes\x7d list, then a transaction that
    re-updates each pair through the undefined fields u.id and u.order (see
    reorderTransaction); its rejection is caught and surfaced as a 500 while
    the bulkUpdate mutation is already in the store.  Note: this handler is
    unreachable in the served program — MSW resolves handlers in declaration
    order and the PATCH "/jobs/:id" pattern (handlers.js line 85) captures the
    pathname /jobs/reorder first; the route actually served is modelled by
    patchJobsRoute and reorderJobsServed below. -/
def reorderJobs (db : Db) (simFail : Bool) (payload : ReorderPayload) :
    Except ApiError Unit × Db :=
  if simFail then (.error ⟨500, "Failed to reorder jobs"⟩, db)
  else
    match payload with
    | none => (.error ⟨400, "Invalid JSON payload"⟩, db)
    | some none => (.error ⟨400, "Invalid payload for reordering"⟩, db)
    | some (some orderedJobs) =>
      if orderedJobs.length == 0 then (.error ⟨400, "Invalid payload for reordering"⟩, db)
      else
        let updates := orderedJobs.map fun p => ReorderUpdate.mk p.1 p.2
        let jobs1 := bulkUpdateJobs db.jobs updates
        match reorderTransaction jobs1 updates with
        | .ok jobs2 => (.ok (), { db with jobs := jobs2 })
        | .error _ =>
          (.error ⟨500, "Failed to reorder jobs (internal)"⟩, { db with jobs := jobs1 })

/-! ### The PATCH /jobs route as actually served

MSW resolves request handlers in declaration order.  In handlers.js the
PATCH "/jobs/:id" handler (line 85) is declared before the
PATCH "/jobs/reorder" handler (line 102), and the ":id" segment of the
path pattern matches any single segment — including the literal
"reorder" — so every PATCH request under /jobs is served by the
patch-job handler, with params.id bound to the raw segment, and the
declared reorder handler never runs. -/

/-- parseInt(segment, 10) as applied to route params by the PATCH handlers:
    the value of the leading run of decimal digits, or NaN — modelled as
    none — when the segment does not start with a digit (e.g. "reorder"). -/
def parseIntParam (s : String) : Option Nat :=
  let ds := s.toList.takeWhile Char.isDigit
  if ds.isEmpty then none
  else some (ds.foldl (fun n c => n * 10 + (c.toNat - 48)) 0)

/-- The PATCH /jobs/<segment> route as MSW actually serves it (the handler of
    handlers.js lines 85-99 reached with a raw, possibly non-numeric id
    segment).  After the failure trial it runs
    db.jobs.update(parseInt(params.id, 10), body): a non-numeric segment makes
    the key NaN, which is not a valid IndexedDB key, so the update rejects,
    the resolver throws, and MSW coerces the unhandled exception into a 500
    response with the store untouched.  For a numeric segment it behaves
    exactly as patchJob (patchJobsRoute_eq_patchJob below). -/
def patchJobsRoute (db : Db) (simFail : Bool) (idParam : String) (body : JobPatch) :
    Except ApiError (Nat × JobPatch) × Db :=
  if simFail then (.error ⟨500, "Failed to save changes"⟩, db)
  else
    match parseIntParam idParam with
    | none => (.error ⟨500, "DataError: Invalid key provided"⟩, db)
    | some k =>
      (.ok (k, body),
       { db with jobs := db.jobs.map fun j => if j.id == k then applyJobPatch body j else j })

/-- The bulk-reorder operation as the program actually serves it: a
    PATCH /jobs/reorder request is captured by patchJobsRoute with
    params.id = "reorder", so the declared reorder handler (reorderJobs,
    handlers.js lines 102-162) never runs.  An unparseable body makes
    request.json() throw inside the resolver — also coerced by MSW to a 500
    with the store untouched; a parsed body \x7borderedJobs: ...\x7d carries no job
    field, so as the Dexie changes argument it is the empty patch, and it is
    never applied anyway because the key parseInt("reorder", 10) is NaN. -/
def reorderJobsServed (db : Db) (simFail : Bool) (body : ReorderPayload) :
    Except ApiError (Nat × JobPatch) × Db :=
  if simFail then (.error ⟨500, "Failed to save changes"⟩, db)
  else
    match body with
    | none => (.error ⟨500, "SyntaxError: invalid JSON body"⟩, db)
    | some _ => patchJobsRoute db false "reorder" {}

/-! ### Candidate and assessment writes -/

/-- Body of POST /candidates (CandidateFormModal sends name, email, jobId). -/
structure NewCandidateInput where
  name : String
  email : String
  jobId : Nat
deriving Repr, DecidableEq

/-- POST /candidates (handlers.js lines 209-228): on simulated failure a 500;
    otherwise stamps stage="applied", createdAt and a derived avatar url and
    adds the record. -/
def createCandidate (db : Db) (simFail : Bool) (input : NewCandidateInput) (now : String) :
    Except ApiError Candidate × Db :=
  if simFail then (.error ⟨500, "Failed to create candidate"⟩, db)
  else
    let c : Candidate :=
      { id := nextId (db.candidates.map Candidate.id), name := input.name,
        email := input.email, stage := "applied", jobId := input.jobId, createdAt := now,
        avatarUrl := "https://api.dicebear.com/8.x/avataaars/svg?seed=" ++ input.name }
    (.ok c, { db with candidates := db.candidates ++ [c] })

/-- A PATCH /candidates/:id body. -/
structure CandidatePatch where
  name : Option String := none
  email : Option String := none
  stage : Option String := none
  jobId : Option Nat := none
deriving Repr, DecidableEq

/-- Application of a patch body to a candidate record. -/
def applyCandidatePatch (p : CandidatePatch) (c : Candidate) : Candidate :=
  { c with name := p.name.getD c.name, email := p.email.getD c.email,
           stage := p.stage.getD c.stage, jobId := p.jobId.getD c.jobId }

/-- PATCH /candidates/:id (handlers.js lines 230-244): mirror image of
    PATCH /jobs/:id, including the silent no-op on an absent id. -/
def patchCandidate (db : Db) (simFail : Bool) (id : Nat) (patch : CandidatePatch) :
    Except ApiError (Nat × CandidatePatch) × Db :=
  if simFail then (.error ⟨500, "Failed to update candidate"⟩, db)
  else
    (.ok (id, patch),
     { db with candidates :=
        db.candidates.map fun c => if c.id == id then applyCandidatePatch patch c else c })

/-- Body of PUT /assessments/:jobId. -/
structure AssessmentInput where
  title : String
  sections : List Section
deriving Repr, DecidableEq

/-- PUT /assessments/:jobId (handlers.js lines 275-289): on simulated failure a
    500; otherwise db.assessments.put(\x7b...assessmentData, jobId\x7d): replace the
    record with that primary key, or add it when absent. -/
def putAssessment (db : Db) (simFail : Bool) (jobId : Nat) (input : AssessmentInput) :
    Except ApiError Assessment × Db :=
  if simFail then (.error ⟨500, "Failed to save assessment"⟩, db)
  else
    let a : Assessment := { jobId := jobId, title := input.title, sections := input.sections }
    let assessments :=
      if db.assessments.any fun x => x.jobId == jobId then
        db.assessments.map fun x => if x.jobId == jobId then a else x
      else db.assessments ++ [a]
    (.ok a, { db with assessments := assessments })

/-- Body of POST /assessments/:jobId/submit. -/
structure SubmissionInput where
  candidateId : Nat
  answers : List (String × String)
deriving Repr, DecidableEq

/-- POST /assessments/:jobId/submit (handlers.js lines 291-310): on simulated
    failure a 500; otherwise appends an assessment-response record stamped with
    jobId and createdAt. -/
def submitAssessmentResponse (db : Db) (simFail : Bool) (jobId : Nat)
    (input : SubmissionInput) (now : String) : Except ApiError AssessmentResponse × Db :=
  if simFail then (.error ⟨500, "Failed to submit assessment"⟩, db)
  else
    let r : AssessmentResponse :=
      { id := nextId (db.assessmentResponses.map AssessmentResponse.id), jobId := jobId,
        candidateId := input.candidateId, answers := input.answers, createdAt := now }
    (.ok r, { db with assessmentResponses := db.assessmentResponses ++ [r] })

/-! ## Optimistic mutation controller: candidate Kanban (CandidatesPage.jsx)

The view-state is the candidates array held in the page component.  A
dnd-kit identifier is either a Kanban column id (a stage string) or a card
id (a numeric candidate id); the JS code distinguishes them because
STAGE_IDS.includes(id) is false for numbers and c.id === id is false for
strings. -/

/-- A dnd-kit identifier on the candidates Kanban board. -/
inductive DragId where
  | column (stage : String)
  | card (id : Nat)
deriving Repr, DecidableEq

namespace CandidatesPage

/-- findContainer (CandidatesPage.jsx lines 64-67): a stage id maps to itself,
    a card id to the stage of the candidate carrying it, anything else to
    undefined. -/
def findContainer (cands : List Candidate) : DragId → Option String
  | .column s =>
    if STAGE_IDS.contains s then some s
    else ((cands.find? fun _ => false).map Candidate.stage)
  | .card n =>
    if false then none
    else ((cands.find? fun c => c.id == n).map Candidate.stage)

/-- handleDragOver (CandidatesPage.jsx lines 74-90): during the preview phase a
    cross-container hover rewrites the dragged candidate record in place to the
    hovered container stage; no dispatcher call is made.  The source mutates
    prev[activeIndex].stage and returns a copied array, so the change is
    visible to every later reader of the candidate object. -/
def handleDragOver (cands : List Candidate) (activeId : Nat) (over : Option DragId) :
    List Candidate :=
  match over with
  | none => cands
  | some overId =>
    let activeContainer := findContainer cands (.card activeId)
    let overContainer := findContainer cands overId
    match activeContainer, overContainer with
    | some ac, some oc =>
      if ac == oc then cands
      else if (cands.find? fun c => c.id == activeId).isSome then
        cands.map fun c => if c.id == activeId then { c with stage := oc } else c
      else cands
    | _, _ => cands

/-- handleDragEnd (CandidatesPage.jsx lines 92-146), with the dispatcher
    outcome passed in as apiOk.  Returns the list of patch-candidate dispatcher
    calls issued (id and destination stage) together with the view-state after
    the drop settles.  oldStage is read from the candidate record at drop time
    (the record the preview phase already mutated). -/
def handleDragEnd (cands : List Candidate) (activeId : Nat) (over : Option DragId)
    (apiOk : Bool) : List (Nat × String) × List Candidate :=
  match over with
  | none => ([], cands)
  | some overId =>
    let overContainer0 := findContainer cands overId
    let overContainer : Option String :=
      match overContainer0 with
      | some oc => some oc
      | none =>
        match overId with
        | .card n =>
          if (cands.find? (fun c => c.id == n)).isSome then findContainer cands overId else none
        | .column _ => none
    match overContainer with
    | none => ([], cands)
    | some newStage =>
      match cands.find? (fun c => c.id == activeId) with
      | none => ([], cands)
      | some orig =>
        let oldStage := orig.stage
        if oldStage == newStage then ([], cands)
        else
          let calls := [(activeId, newStage)]
          if apiOk then (calls, cands)
          else
            (calls,
             cands.map fun c => if c.id == activeId then { c with stage := oldStage } else c)

/-- One complete drag session on the Kanban board: the preview phase fires
    (dnd-kit raises onDragOver whenever the hovered droppable changes, so by
    drop time the preview has processed the final container) and then the drop
    itself.  Result: dispatcher calls issued and final view-state. -/
def dragSession (cands : List Candidate) (activeId : Nat) (over : Option DragId)
    (apiOk : Bool) : List (Nat × String) × List Candidate :=
  handleDragEnd (handleDragOver cands activeId over) activeId over apiOk

end CandidatesPage

/-! ## Optimistic mutation controller: jobs board reorder (JobsPage.jsx) -/

namespace JobsPage

/-- arrayMove from dnd-kit: remove the element at index i and reinsert it at
    index j (clamped to the end, as JS splice clamps an over-long insertion
    index).  Indices reaching this function come from findIndex over ids that
    are present in the window, so the out-of-range source branch is inert. -/
def arrayMove {α : Type} (l : List α) (i j : Nat) : List α :=
  match l[i]? with
  | none => l
  | some v => (l.eraseIdx i).insertIdx (min j (l.length - 1)) v

/-- newJobsArray.map((job, index) => (\x7b ...job, order: base + index \x7d)) on
    JobsPage.jsx lines 79-82: reassign consecutive order values starting at the
    window base offset. -/
def withOrders (base : Nat) : List Job → List Job
  | [] => []
  | j :: js => { j with order := base } :: withOrders (base + 1) js

/-- handleDragEnd (JobsPage.jsx lines 69-108), with the dispatcher outcome
    passed in as apiOk.  Returns the bulk-reorder payload sent (none when no
    call is issued) and the view-state after the drop settles: the optimistic
    newJobsWithOrder on success, the snapshot originalJobs on failure.  The
    window base offset is (page - 1) * 10, page being the current filter page
    and 10 the fixed pageSize. -/
def handleDragEnd (jobs : List Job) (activeId : Nat) (over : Option Nat)
    (page : Nat) (apiOk : Bool) : Option (List (Nat × Nat)) × List Job :=
  match over with
  | none => (none, jobs)
  | some overId =>
    if activeId == overId then (none, jobs)
    else
      let oldIndex := jobs.findIdx fun j => j.id == activeId
      let newIndex := jobs.findIdx fun j => j.id == overId
      let newJobsArray := arrayMove jobs oldIndex newIndex
      let newJobsWithOrder := withOrders ((page - 1) * 10) newJobsArray
      let apiPayload := newJobsWithOrder.map fun j => (j.id, j.order)
      if apiOk then (some apiPayload, newJobsWithOrder)
      else (some apiPayload, jobs)

end JobsPage

/-! ## Supporting lemmas about the stable sort -/

open List

theorem insertKeyed_perm {κ α : Type} [LinearOrder κ] (key : α → κ) (x : α) (l : List α) :
    insertKeyed key x l ~ x :: l := by
  induction l with
  | nil => exact List.Perm.refl _
  | cons y ys ih =>
    simp only [insertKeyed]
    split
    · exact List.Perm.refl _
    · exact (ih.cons y).trans (List.Perm.swap x y ys)

theorem sortByKey_perm {κ α : Type} [LinearOrder κ] (key : α → κ) (l : List α) :
    sortByKey key l ~ l := by
  induction l with
  | nil => exact List.Perm.refl _
  | cons x xs ih => exact (insertKeyed_perm key x (sortByKey key xs)).trans (ih.cons x)

theorem insertKeyed_pairwise {κ α : Type} [LinearOrder κ] (key : α → κ) (x : α) {l : List α}
    (h : l.Pairwise fun a b => key a ≤ key b) :
    (insertKeyed key x l).Pairwise fun a b => key a ≤ key b := by
  induction l with
  | nil => simp [insertKeyed]
  | cons y ys ih =>
    rw [List.pairwise_cons] at h
    obtain ⟨hy, hys⟩ := h
    simp only [insertKeyed]
    split
    · rename_i hxy
      rw [List.pairwise_cons]
      refine ⟨?_, List.pairwise_cons.mpr ⟨hy, hys⟩⟩
      intro b hb
      rcases List.mem_cons.mp hb with rfl | hb
      · exact hxy
      · exact le_trans hxy (hy b hb)
    · rename_i hxy
      rw [List.pairwise_cons]
      refine ⟨?_, ih hys⟩
      intro b hb
      rw [(insertKeyed_perm key x ys).mem_iff] at hb
      rcases List.mem_cons.mp hb with rfl | hb
      · exact le_of_not_le hxy
      · exact hy b hb

theorem sortByKey_pairwise {κ α : Type} [LinearOrder κ] (key : α → κ) (l : List α) :
    (sortByKey key l).Pairwise fun a b => key a ≤ key b := by
  induction l with
  | nil => simp [sortByKey]
  | cons x xs ih => exact insertKeyed_pairwise key x ih

theorem filter_insertKeyed_ne {κ α : Type} [LinearOrder κ] (key : α → κ) (x : α) (l : List α)
    (k : κ) (hx : key x ≠ k) :
    (insertKeyed key x l).filter (fun a => decide (key a = k)) =
      l.filter (fun a => decide (key a = k)) := by
  induction l with
  | nil => simp [insertKeyed, hx]
  | cons y ys ih =>
    simp only [insertKeyed]
    split
    · simp [hx]
    · by_cases hy : key y = k <;> simp [List.filter_cons, hy, ih]

theorem filter_insertKeyed_eq {κ α : Type} [LinearOrder κ] (key : α → κ) (x : α) {l : List α}
    (k : κ) (hx : key x = k) (hl : l.Pairwise fun a b => key a ≤ key b) :
    (insertKeyed key x l).filter (fun a => decide (key a = k)) =
      x :: l.filter (fun a => decide (key a = k)) := by
  induction l with
  | nil => simp [insertKeyed, hx]
  | cons y ys ih =>
    rw [List.pairwise_cons] at hl
    obtain ⟨hy, hys⟩ := hl
    simp only [insertKeyed]
    split
    · simp [hx]
    · rename_i hxy
      have hyk : key y ≠ k := by
        intro hk
        exact hxy (le_of_eq (hx.trans hk.symm))
      simp [List.filter_cons, hyk, ih hys]

theorem sortByKey_filter {κ α : Type} [LinearOrder κ] (key : α → κ) (l : List α) (k : κ) :
    (sortByKey key l).filter (fun a => decide (key a = k)) =
      l.filter (fun a => decide (key a = k)) := by
  induction l with
  | nil => rfl
  | cons x xs ih =>
    show (insertKeyed key x (sortByKey key xs)).filter _ = _
    by_cases hx : key x = k
    · rw [filter_insertKeyed_eq key x k hx (sortByKey_pairwise key xs), ih,
        List.filter_cons, if_pos (by simpa using hx)]
    · rw [filter_insertKeyed_ne key x (sortByKey key xs) k hx, ih,
        List.filter_cons, if_neg (by simpa using hx)]

/-! ## Supporting lemmas about page slicing and the ceiling page count -/

theorem flatten_chunks {α : Type} (l : List α) (ps k : Nat) :
    ((List.range k).map fun i => (l.drop (i * ps)).take ps).flatten = l.take (k * ps) := by
  induction k with
  | zero => simp
  | succ n ih =>
    rw [List.range_succ, List.map_append, List.flatten_append, ih]
    rw [Nat.succ_mul, List.take_add]
    simp

theorem ceil_pages_cover (t ps : Nat) (h : 0 < ps) : t ≤ (t + ps - 1) / ps * ps := by
  have := Nat.ceilDiv_eq_add_pred_div t ps
  have h2 : t ⌈/⌉ ps ≤ (t + ps - 1) / ps := le_of_eq this
  have h3 := (ceilDiv_le_iff_le_smul h).mp h2
  simpa [smul_eq_mul, Nat.mul_comm] using h3

theorem chunks_sum_length {α : Type} (l : List α) (ps k : Nat) (h : l.length ≤ k * ps) :
    (((List.range k).map fun i => ((l.drop (i * ps)).take ps).length)).sum = l.length := by
  have hfl := congrArg List.length (flatten_chunks l ps k)
  rw [List.length_flatten, List.map_map, List.length_take, Nat.min_eq_right h] at hfl
  exact hfl

theorem chunks_disjoint {α : Type} (l : List α) (ps k : Nat) (h : l.length ≤ k * ps)
    (hnd : l.Nodup) (p q : Nat) (hp : p < k) (hq : q < k) (hpq : p ≠ q) (x : α)
    (hxp : x ∈ (l.drop (p * ps)).take ps) : x ∉ (l.drop (q * ps)).take ps := by
  have hfl := flatten_chunks l ps k
  have htake : l.take (k * ps) = l := List.take_of_length_le h
  have hnj : (((List.range k).map fun i => (l.drop (i * ps)).take ps)).flatten.Nodup := by
    rw [hfl, htake]; exact hnd
  have hdisj := (List.nodup_flatten.mp hnj).2
  rw [List.pairwise_map] at hdisj
  rw [List.pairwise_iff_getElem] at hdisj
  rcases Nat.lt_or_ge p q with hlt | hge
  · have := hdisj p q (by simpa using hp) (by simpa using hq) (by simpa using hlt)
    simp only [List.getElem_range] at this
    exact fun hxq => this hxp hxq
  · have hlt : q < p := lt_of_le_of_ne hge (Ne.symm hpq)
    have := hdisj q p (by simpa using hq) (by simpa using hp) (by simpa using hlt)
    simp only [List.getElem_range] at this
    exact fun hxq => this hxq hxp

theorem totalPages_eq_ceil (t ps : Nat) (h : 0 < ps) :
    (((t + ps - 1) / ps : Nat) : ℤ) = ⌈(t : ℚ) / (ps : ℚ)⌉ := by
  have hps : (0 : ℚ) < (ps : ℚ) := by exact_mod_cast h
  rcases Nat.eq_zero_or_pos t with rfl | ht
  · rw [Nat.div_eq_of_lt (by omega)]
    simp
  · set q := (t + ps - 1) / ps with hqdef
    have hqps : t ≤ q * ps := ceil_pages_cover t ps h
    have hub : q * ps ≤ t + ps - 1 := Nat.div_mul_le_self _ _
    have hq1 : 1 ≤ q := by
      rcases Nat.eq_zero_or_pos q with hz | hpos
      · rw [hz] at hqps; simp at hqps; omega
      · exact hpos
    have hlow : (q - 1) * ps < t := by
      rw [Nat.sub_mul, Nat.one_mul]
      omega
    symm
    rw [Int.ceil_eq_iff]
    constructor
    · have hcast : (((q : Nat) : ℤ) : ℚ) - 1 = ((q - 1 : Nat) : ℚ) := by
        push_cast [hq1]
        ring
      rw [hcast, lt_div_iff₀ hps]
      exact_mod_cast hlow
    · rw [div_le_iff₀ hps]
      exact_mod_cast hqps

/-! ## Supporting lemmas about the reorder controller -/

theorem cons_eraseIdx_perm {α : Type} (l : List α) (i : Nat) (v : α) (h : l[i]? = some v) :
    v :: l.eraseIdx i ~ l := by
  induction l generalizing i with
  | nil => simp at h
  | cons a l ih =>
    cases i with
    | zero =>
      simp at h
      subst h
      exact List.Perm.refl _
    | succ i =>
      simp only [List.getElem?_cons_succ] at h
      calc v :: (a :: l).eraseIdx (i + 1) = v :: a :: l.eraseIdx i := rfl
        _ ~ a :: v :: l.eraseIdx i := List.Perm.swap a v _
        _ ~ a :: l := (ih i h).cons a

theorem arrayMove_perm {α : Type} (l : List α) (i j : Nat) (hi : i < l.length) :
    JobsPage.arrayMove l i j ~ l := by
  unfold JobsPage.arrayMove
  have h : l[i]? = some l[i] := List.getElem?_eq_getElem hi
  rw [h]
  have hlen : (l.eraseIdx i).length + 1 = l.length := List.length_eraseIdx_add_one hi
  have hle : min j (l.length - 1) ≤ (l.eraseIdx i).length := by
    have := min_le_right j (l.length - 1)
    omega
  exact (List.perm_insertIdx l[i] _ hle).trans (cons_eraseIdx_perm l i _ h)

theorem withOrders_map_order (base : Nat) (l : List Job) :
    (JobsPage.withOrders base l).map Job.order = List.range' base l.length := by
  induction l generalizing base with
  | nil => rfl
  | cons j js ih => simp [JobsPage.withOrders, List.range', ih]

theorem withOrders_map_id (base : Nat) (l : List Job) :
    (JobsPage.withOrders base l).map Job.id = l.map Job.id := by
  induction l generalizing base with
  | nil => rfl
  | cons j js ih => simp [JobsPage.withOrders, ih]

/-- Sequential application of the sanitized reorder changes to one record. -/
def applyReorderUpdates (ups : List ReorderUpdate) (j : Job) : Job :=
  ups.foldl (fun a u => if a.id == u.key then { a with order := u.changesOrder } else a) j

theorem applyReorderUpdates_cons (u : ReorderUpdate) (us : List ReorderUpdate) (j : Job) :
    applyReorderUpdates (u :: us) j =
      applyReorderUpdates us
        (if j.id == u.key then { j with order := u.changesOrder } else j) := rfl

theorem bulkUpdateJobs_eq_map (jobs : List Job) (ups : List ReorderUpdate) :
    bulkUpdateJobs jobs ups = jobs.map (applyReorderUpdates ups) := by
  induction ups generalizing jobs with
  | nil =>
    show jobs = jobs.map fun j => j
    rw [List.map_id']
  | cons u us ih =>
    show bulkUpdateJobs (jobs.map _) us = _
    rw [ih, List.map_map]
    rfl

theorem applyReorderUpdates_id (ups : List ReorderUpdate) (j : Job) :
    (applyReorderUpdates ups j).id = j.id := by
  induction ups generalizing j with
  | nil => rfl
  | cons u us ih =>
    rw [applyReorderUpdates_cons, ih]
    split <;> rfl

theorem applyReorderUpdates_not_mem (ups : List ReorderUpdate) (j : Job)
    (h : j.id ∉ ups.map ReorderUpdate.key) : applyReorderUpdates ups j = j := by
  induction ups with
  | nil => rfl
  | cons u us ih =>
    simp only [List.map_cons, List.mem_cons, not_or] at h
    rw [applyReorderUpdates_cons, if_neg (by simpa using h.1)]
    exact ih h.2

/-! ## Small generic helpers -/

theorem map_patch_id {α : Type} (l : List α) (idOf : α → Nat) (id : Nat) (f : α → α)
    (h : id ∉ l.map idOf) : (l.map fun x => if idOf x == id then f x else x) = l := by
  induction l with
  | nil => rfl
  | cons a l ih =>
    simp only [List.map_cons, List.mem_cons, not_or] at h
    rw [List.map_cons, if_neg (by simpa using fun e => h.1 e.symm), ih h.2]

instance {ε α : Type} [DecidableEq ε] [DecidableEq α] : DecidableEq (Except ε α) := fun a b =>
  match a, b with
  | .ok x, .ok y =>
    if h : x = y then .isTrue (by rw [h]) else .isFalse (fun hh => h (Except.ok.inj hh))
  | .error x, .error y =>
    if h : x = y then .isTrue (by rw [h]) else .isFalse (fun hh => h (Except.error.inj hh))
  | .ok _, .error _ => .isFalse (fun hh => Except.noConfusion hh)
  | .error _, .ok _ => .isFalse (fun hh => Except.noConfusion hh)

/-- On a numeric id segment the served PATCH /jobs route coincides with the
    patch-job embedding. -/
theorem patchJobsRoute_eq_patchJob (db : Db) (simFail : Bool) (idParam : String)
    (body : JobPatch) (k : Nat) (h : parseIntParam idParam = some k) :
    patchJobsRoute db simFail idParam body = patchJob db simFail k body := by
  unfold patchJobsRoute patchJob
  rw [h]

/-! ## Helper equations and membership lemmas for the query engine -/

theorem listJobs_jobs_eq {κ : Type} [LinearOrder κ] (key : Job → κ) (db : List Job)
    (search status : String) (page ps : Nat) :
    (listJobs key db search status page ps).jobs =
      ((sortByKey key (searchFiltered search (statusFiltered status db))).drop
        ((page - 1) * ps)).take ps := rfl

theorem listJobs_total_eq {κ : Type} [LinearOrder κ] (key : Job → κ) (db : List Job)
    (search status : String) (page ps : Nat) :
    (listJobs key db search status page ps).total =
      (searchFiltered search (statusFiltered status db)).length := rfl

theorem listJobs_totalPages_eq {κ : Type} [LinearOrder κ] (key : Job → κ) (db : List Job)
    (search status : String) (page ps : Nat) :
    (listJobs key db search status page ps).totalPages =
      ((searchFiltered search (statusFiltered status db)).length + ps - 1) / ps := rfl

theorem listCandidates_candidates_eq (db : List Candidate) (search stage : String)
    (page ps : Nat) :
    (listCandidates db search stage page ps).candidates =
      ((candidateSearchFiltered search (stageFiltered stage db)).drop ((page - 1) * ps)).take ps
      := rfl

theorem listCandidates_total_eq (db : List Candidate) (search stage : String) (page ps : Nat) :
    (listCandidates db search stage page ps).total =
      (candidateSearchFiltered search (stageFiltered stage db)).length := rfl

theorem listCandidates_totalPages_eq (db : List Candidate) (search stage : String)
    (page ps : Nat) :
    (listCandidates db search stage page ps).totalPages =
      ((candidateSearchFiltered search (stageFiltered stage db)).length + ps - 1) / ps := rfl

theorem mem_statusFiltered (status : String) (db : List Job) (j : Job) :
    j ∈ statusFiltered status db ↔ j ∈ db ∧ (status = "all" ∨ j.status = status) := by
  unfold statusFiltered
  by_cases h : status = "all"
  · subst h
    simp
  · rw [if_pos (by simpa using h)]
    simp [List.mem_filter, h]

theorem mem_searchFiltered (search : String) (db : List Job) (j : Job) (hs : search ≠ "") :
    j ∈ searchFiltered search db ↔ j ∈ db ∧ jobMatchesSearch search j = true := by
  unfold searchFiltered
  rw [if_pos (by simpa using hs)]
  simp [List.mem_filter]

theorem mem_stageFiltered (stage : String) (db : List Candidate) (c : Candidate) :
    c ∈ stageFiltered stage db ↔ c ∈ db ∧ (stage = "all" ∨ c.stage = stage) := by
  unfold stageFiltered
  by_cases h : stage = "all"
  · subst h
    simp
  · rw [if_pos (by simpa using h)]
    simp [List.mem_filter, h]

theorem mem_candidateSearchFiltered (search : String) (db : List Candidate) (c : Candidate)
    (hs : search ≠ "") :
    c ∈ candidateSearchFiltered search db ↔ c ∈ db ∧ candidateMatchesSearch search c = true := by
  unfold candidateSearchFiltered
  rw [if_pos (by simpa using hs)]
  simp [List.mem_filter]

theorem statusFiltered_sublist (status : String) (db : List Job) :
    (statusFiltered status db).Sublist db := by
  unfold statusFiltered
  split
  · exact List.filter_sublist _
  · exact List.Sublist.refl _

theorem searchFiltered_sublist (search : String) (db : List Job) :
    (searchFiltered search db).Sublist db := by
  unfold searchFiltered
  split
  · exact List.filter_sublist _
  · exact List.Sublist.refl _

theorem stageFiltered_sublist (stage : String) (db : List Candidate) :
    (stageFiltered stage db).Sublist db := by
  unfold stageFiltered
  split
  · exact List.filter_sublist _
  · exact List.Sublist.refl _

theorem candidateSearchFiltered_sublist (search : String) (db : List Candidate) :
    (candidateSearchFiltered search db).Sublist db := by
  unfold candidateSearchFiltered
  split
  · exact List.filter_sublist _
  · exact List.Sublist.refl _

/-- Page slices of a duplicate-free list of length t cover it exactly: the
    ceil(t / ps) pages have lengths summing to t and are pairwise disjoint. -/
theorem pages_partition {α : Type} (l : List α) (ps : Nat) (hps : 0 < ps) (hnd : l.Nodup) :
    (((List.range ((l.length + ps - 1) / ps)).map
        fun p => ((l.drop (p * ps)).take ps).length)).sum = l.length ∧
    ∀ p q, p < (l.length + ps - 1) / ps → q < (l.length + ps - 1) / ps → p ≠ q →
      ∀ x, x ∈ (l.drop (p * ps)).take ps → x ∉ (l.drop (q * ps)).take ps := by
  have hcov : l.length ≤ (l.length + ps - 1) / ps * ps := ceil_pages_cover _ _ hps
  exact ⟨chunks_sum_length l ps _ hcov,
    fun p q hp hq hpq x hx => chunks_disjoint l ps _ hcov hnd p q hp hq hpq x hx⟩

/-! ## Concrete fixtures used by the claim theorems -/

/-- Fixture: a candidate sitting in stage "applied". -/
def avaApplied : Candidate :=
  { id := 1, name := "Ava", email := "ava@example.com", stage := "applied", jobId := 1,
    createdAt := "2025-01-01", avatarUrl := "https://api.dicebear.com/8.x/avataaars/svg?seed=Ava" }

/-- Fixture: first job of a page-2 window (store order value 10). -/
def jobTen : Job :=
  { id := 1, title := "Backend Engineer", slug := "backend-engineer", status := "active",
    order := 10, description := "", tags := [], createdAt := "t" }

/-- Fixture: second job of a page-2 window (store order value 11). -/
def jobEleven : Job :=
  { id := 2, title := "Data Scientist", slug := "data-scientist", status := "active",
    order := 11, description := "", tags := [], createdAt := "t" }

/-- Fixture: a store holding one job with order 5. -/
def reorderDb : Db :=
  { jobs := [{ id := 1, title := "Backend Engineer", slug := "backend-engineer",
               status := "active", order := 5, description := "", tags := [], createdAt := "t" }],
    candidates := [], assessments := [], assessmentResponses := [] }

/-! ## Claim theorems -/

/-- Claim C1, code-bug evidence: a candidate in stage "applied" is dragged onto the
    "tech" column (the preview fires, then the drop) with the dispatcher forced to
    fail.  The preview already rewrote the candidate record in place, so at drop
    time the controller reads oldStage = "tech" = newStage, returns before issuing
    any dispatcher call, and the rollback branch never runs: the final view-state
    keeps the candidate in "tech" instead of restoring "applied" as the claim
    requires. -/
theorem c1_failed_move_not_restored :
    CandidatesPage.dragSession [avaApplied] 1 (some (DragId.column "tech")) false =
      ([], [{ avaApplied with stage := "tech" }]) := by decide

/-- Claim C2, code-bug evidence: the preview phase issues no dispatcher call and
    performs the optimistic stage change (first conjunct), but the final drop of
    the same cross-stage drag session issues zero patch-candidate dispatcher
    calls, not exactly one: the preview has already overwritten the candidate
    stage, so the drop sees source = destination and returns early. -/
theorem c2_drop_issues_zero_calls :
    CandidatesPage.handleDragOver [avaApplied] 1 (some (DragId.column "tech")) =
      [{ avaApplied with stage := "tech" }] ∧
    (CandidatesPage.dragSession [avaApplied] 1 (some (DragId.column "tech")) true).1.length
      = 0 := by
  exact ⟨by decide, by decide⟩

/-- Claim C6: a categorical-move intent whose source stage equals its destination
    stage performs zero dispatcher calls and leaves the rendered view-state
    unchanged: the preview no-ops because active and over containers coincide,
    and the drop returns before the dispatcher call because oldStage = newStage. -/
theorem c6_same_stage_noop (cands : List Candidate) (activeId : Nat) (overId : DragId)
    (apiOk : Bool) (c : Candidate)
    (hfind : cands.find? (fun x => x.id == activeId) = some c)
    (hover : CandidatesPage.findContainer cands overId = some c.stage) :
    CandidatesPage.dragSession cands activeId (some overId) apiOk = ([], cands) := by
  have hac : CandidatesPage.findContainer cands (DragId.card activeId) = some c.stage := by
    simp [CandidatesPage.findContainer, hfind]
  have hmid : CandidatesPage.handleDragOver cands activeId (some overId) = cands := by
    simp only [CandidatesPage.handleDragOver, hac, hover, beq_self_eq_true, if_true]
  unfold CandidatesPage.dragSession
  rw [hmid]
  simp only [CandidatesPage.handleDragEnd, hover, hfind, beq_self_eq_true, if_true]

/-- Witness for C6 at a concrete input: dropping the "applied" candidate back on
    the "applied" column is a complete no-op. -/
theorem c6_same_stage_noop_witness :
    CandidatesPage.dragSession [avaApplied] 1 (some (DragId.column "applied")) true =
      ([], [avaApplied]) :=
  c6_same_stage_noop [avaApplied] 1 (DragId.column "applied") true avaApplied
    (by decide) (by decide)

/-- Claim C4: whenever the Bernoulli failure trial triggers, every write-class
    operation (create-job, patch-job, bulk-reorder-jobs, create-candidate,
    patch-candidate, put-assessment, submit-assessment-response) rejects with a
    500 carrying its human-readable message and returns the Collection Store
    exactly as it was: the trial is evaluated before the body is read and before
    any table is touched. -/
theorem c4_simulated_failure_leaves_store (db : Db) (inpJ : NewJobInput) (now : String)
    (idJ : Nat) (pJ : JobPatch) (pl : ReorderPayload) (inpC : NewCandidateInput)
    (idC : Nat) (pC : CandidatePatch) (aid : Nat) (ai : AssessmentInput)
    (sid : Nat) (si : SubmissionInput) :
    createJob db true inpJ now = (.error ⟨500, "Server failed to create job"⟩, db) ∧
    patchJob db true idJ pJ = (.error ⟨500, "Failed to save changes"⟩, db) ∧
    reorderJobs db true pl = (.error ⟨500, "Failed to reorder jobs"⟩, db) ∧
    createCandidate db true inpC now = (.error ⟨500, "Failed to create candidate"⟩, db) ∧
    patchCandidate db true idC pC = (.error ⟨500, "Failed to update candidate"⟩, db) ∧
    putAssessment db true aid ai = (.error ⟨500, "Failed to save assessment"⟩, db) ∧
    submitAssessmentResponse db true sid si now =
      (.error ⟨500, "Failed to submit assessment"⟩, db) :=
  ⟨rfl, rfl, rfl, rfl, rfl, rfl, rfl⟩

/-- Claim C5, code-bug evidence: MSW matches request handlers in declaration
    order, so PATCH /jobs/reorder is captured by the earlier-declared
    "/jobs/:id" handler with params.id = "reorder", and the declared reorder
    handler — the one carrying the 400 validation and the \x7bstatus: ok\x7d
    branch — is unreachable.  Absent the failure trial, every reorder request
    (empty, malformed or well-formed payload alike) leaves the Collection
    Store untouched and is answered by the 500 that MSW produces when the
    resolver throws on db.jobs.update(NaN, ...); no 400 ValidationError is
    ever produced and no reorder call ever succeeds. -/
theorem c5_reorder_route_shadowed (db : Db) (body : ReorderPayload) :
    (reorderJobsServed db false body).2 = db ∧
    (∃ msg, (reorderJobsServed db false body).1 = Except.error ⟨500, msg⟩) ∧
    (reorderJobsServed db false body).1 ≠
      Except.error ⟨400, "Invalid payload for reordering"⟩ ∧
    (reorderJobsServed db false body).1 ≠ Except.error ⟨400, "Invalid JSON payload"⟩ ∧
    ∀ r : Nat × JobPatch, (reorderJobsServed db false body).1 ≠ Except.ok r := by
  rcases body with _ | body
  · refine ⟨rfl, ⟨"SyntaxError: invalid JSON body", rfl⟩, ?_, ?_, ?_⟩
    · exact fun h => absurd (Except.error.inj h) (by decide)
    · exact fun h => absurd (Except.error.inj h) (by decide)
    · exact fun r h => Except.noConfusion h
  · refine ⟨rfl, ⟨"DataError: Invalid key provided", rfl⟩, ?_, ?_, ?_⟩
    · exact fun h => absurd (Except.error.inj h) (by decide)
    · exact fun h => absurd (Except.error.inj h) (by decide)
    · exact fun r h => Except.noConfusion h

/-- Claim C3 counterexample: on page 2 the loaded window [jobTen, jobEleven]
    (K = 2) is reordered by dragging job 1 onto job 2 with a successful
    dispatcher call, and the orders assigned in the payload are [10, 11] —
    (page-1)*10 + index — which is not a permutation of [0, K) = [0, 1]. -/
theorem c3_window_orders_not_zero_based :
    ((JobsPage.handleDragEnd [jobTen, jobEleven] 1 (some 2) 2 true).1.getD []).map Prod.snd
      = [10, 11] ∧
    ¬ List.Perm
        (((JobsPage.handleDragEnd [jobTen, jobEleven] 1 (some 2) 2 true).1.getD []).map
          Prod.snd)
        (List.range 2) := by
  exact ⟨by decide, by decide⟩

/-- Claim C3 (amended): a successful bulk-reorder of the loaded window of K jobs
    on page p assigns the K affected jobs the order values (p-1)*10, ...,
    (p-1)*10 + K - 1 — a permutation of [(p-1)*10, (p-1)*10 + K), dense and
    window-relative, zero-based only on the first page; the payload ids are a
    permutation of the window ids, the committed view-state carries exactly
    those orders, and applying the payload to any store leaves every record
    whose id is not in the payload unchanged. -/
theorem c3_reorder_window_density (jobs : List Job) (page activeId overId : Nat)
    (ha : activeId ∈ jobs.map Job.id) (hne : activeId ≠ overId) :
    ∃ pl, (JobsPage.handleDragEnd jobs activeId (some overId) page true).1 = some pl ∧
      pl.map Prod.snd = List.range' ((page - 1) * 10) jobs.length ∧
      List.Perm (pl.map Prod.fst) (jobs.map Job.id) ∧
      (JobsPage.handleDragEnd jobs activeId (some overId) page true).2.map Job.order =
        List.range' ((page - 1) * 10) jobs.length ∧
      ∀ store : List Job,
        bulkUpdateJobs store (pl.map fun q => ReorderUpdate.mk q.1 q.2) =
          store.map (applyReorderUpdates (pl.map fun q => ReorderUpdate.mk q.1 q.2)) ∧
        ∀ j : Job, j.id ∉ pl.map Prod.fst →
          applyReorderUpdates (pl.map fun q => ReorderUpdate.mk q.1 q.2) j = j := by
  have hbeq : (activeId == overId) = false := by simpa using hne
  have hex : ∃ x ∈ jobs, x.id == activeId := by
    rcases List.mem_map.mp ha with ⟨j, hj, hid⟩
    exact ⟨j, hj, by simpa using hid⟩
  have hidx : jobs.findIdx (fun j => j.id == activeId) < jobs.length :=
    List.findIdx_lt_length_of_exists hex
  have hperm :
      List.Perm (JobsPage.arrayMove jobs (jobs.findIdx fun j => j.id == activeId)
        (jobs.findIdx fun j => j.id == overId)) jobs :=
    arrayMove_perm _ _ _ hidx
  have hlen :
      (JobsPage.arrayMove jobs (jobs.findIdx fun j => j.id == activeId)
        (jobs.findIdx fun j => j.id == overId)).length = jobs.length := hperm.length_eq
  have hred : JobsPage.handleDragEnd jobs activeId (some overId) page true =
      (some ((JobsPage.withOrders ((page - 1) * 10)
          (JobsPage.arrayMove jobs (jobs.findIdx fun j => j.id == activeId)
            (jobs.findIdx fun j => j.id == overId))).map fun j => (j.id, j.order)),
       JobsPage.withOrders ((page - 1) * 10)
          (JobsPage.arrayMove jobs (jobs.findIdx fun j => j.id == activeId)
            (jobs.findIdx fun j => j.id == overId))) := by
    simp only [JobsPage.handleDragEnd, hbeq, Bool.false_eq_true, if_false, if_true]
  rw [hred]
  refine ⟨_, rfl, ?_, ?_, ?_, ?_⟩
  · rw [List.map_map]
    show (JobsPage.withOrders _ _).map Job.order = _
    rw [withOrders_map_order, hlen]
  · rw [List.map_map]
    show List.Perm ((JobsPage.withOrders _ _).map Job.id) _
    rw [withOrders_map_id]
    exact hperm.map Job.id
  · show (JobsPage.withOrders _ _).map Job.order = _
    rw [withOrders_map_order, hlen]
  · intro store
    refine ⟨bulkUpdateJobs_eq_map _ _, fun j hj => applyReorderUpdates_not_mem _ _ ?_⟩
    rw [List.map_map]
    exact fun hmem => hj (by simpa using hmem)

/-- Witness for the amended C3 at a concrete input: the page-2 window drag that
    the counterexample uses satisfies both hypotheses, so the orders assigned
    are a permutation of [10, 12). -/
theorem c3_reorder_window_density_witness :
    (1 : Nat) ∈ [jobTen, jobEleven].map Job.id ∧ (1 : Nat) ≠ 2 ∧
    (∃ pl, (JobsPage.handleDragEnd [jobTen, jobEleven] 1 (some 2) 2 true).1 = some pl ∧
      pl.map Prod.snd = List.range' 10 2 ∧
      List.Perm (pl.map Prod.fst) ([jobTen, jobEleven].map Job.id) ∧
      (JobsPage.handleDragEnd [jobTen, jobEleven] 1 (some 2) 2 true).2.map Job.order =
        List.range' 10 2 ∧
      ∀ store : List Job,
        bulkUpdateJobs store (pl.map fun q => ReorderUpdate.mk q.1 q.2) =
          store.map (applyReorderUpdates (pl.map fun q => ReorderUpdate.mk q.1 q.2)) ∧
        ∀ j : Job, j.id ∉ pl.map Prod.fst →
          applyReorderUpdates (pl.map fun q => ReorderUpdate.mk q.1 q.2) j = j) :=
  ⟨by decide, by decide,
    c3_reorder_window_density [jobTen, jobEleven] 2 1 2 (by decide) (by decide)⟩

/-- Claim C10: patching a job id (respectively candidate id) that is not the key
    of any stored record, absent a simulated failure, succeeds with body
    \x7bid, ...patch\x7d while the whole Collection Store is returned unchanged;
    there is no not-found error at the public interface. -/
theorem c10_patch_missing_id_is_silent_success (db : Db) (jid cid : Nat)
    (pJ : JobPatch) (pC : CandidatePatch)
    (hj : jid ∉ db.jobs.map Job.id) (hc : cid ∉ db.candidates.map Candidate.id) :
    patchJob db false jid pJ = (.ok (jid, pJ), db) ∧
    patchCandidate db false cid pC = (.ok (cid, pC), db) := by
  constructor
  · show (Except.ok (jid, pJ),
      { db with jobs := db.jobs.map fun j => if j.id == jid then applyJobPatch pJ j else j })
      = ((Except.ok (jid, pJ) : Except ApiError (Nat × JobPatch)), db)
    rw [map_patch_id db.jobs Job.id jid _ hj]
  · show (Except.ok (cid, pC),
      { db with candidates :=
          db.candidates.map fun c => if c.id == cid then applyCandidatePatch pC c else c })
      = ((Except.ok (cid, pC) : Except ApiError (Nat × CandidatePatch)), db)
    rw [map_patch_id db.candidates Candidate.id cid _ hc]

/-- Witness for C10 at a concrete input: patching ids 5 and 7 against the
    one-job store leaves it untouched and answers with the echoed patches. -/
theorem c10_patch_missing_id_witness :
    patchJob reorderDb false 5 { status := some "archived" } =
      (.ok (5, { status := some "archived" }), reorderDb) ∧
    patchCandidate reorderDb false 7 { stage := some "screen" } =
      (.ok (7, { stage := some "screen" }), reorderDb) :=
  c10_patch_missing_id_is_silent_success reorderDb 5 7
    { status := some "archived" } { stage := some "screen" } (by decide) (by decide)

/-- Claim C7: every list-jobs request is the composition: status equality filter
    first, then the prefix search filter, then a stable sort on the sort key —
    its output is a permutation of the filtered set, sorted by the key, and ties
    keep their insertion order (restricting the sorted list to any fixed key
    value returns exactly the filtered records in their original order) — then
    the slice [(page-1)*pageSize, page*pageSize); total counts the
    filtered-but-unpaginated set and totalPages is the ceiling of
    total / pageSize. -/
theorem c7_list_jobs_pipeline {κ : Type} [LinearOrder κ] (key : Job → κ) (db : List Job)
    (search status : String) (page ps : Nat) (hps : 0 < ps) :
    (listJobs key db search status page ps).jobs =
      ((sortByKey key (searchFiltered search (statusFiltered status db))).drop
        ((page - 1) * ps)).take ps ∧
    List.Perm (sortByKey key (searchFiltered search (statusFiltered status db)))
      (searchFiltered search (statusFiltered status db)) ∧
    (sortByKey key (searchFiltered search (statusFiltered status db))).Pairwise
      (fun a b => key a ≤ key b) ∧
    (∀ k : κ,
      (sortByKey key (searchFiltered search (statusFiltered status db))).filter
          (fun a => decide (key a = k)) =
        (searchFiltered search (statusFiltered status db)).filter
          (fun a => decide (key a = k))) ∧
    (listJobs key db search status page ps).total =
      (searchFiltered search (statusFiltered status db)).length ∧
    ((listJobs key db search status page ps).totalPages : ℤ) =
      ⌈((listJobs key db search status page ps).total : ℚ) / (ps : ℚ)⌉ :=
  ⟨rfl, sortByKey_perm key _, sortByKey_pairwise key _, fun k => sortByKey_filter key _ k,
    rfl, totalPages_eq_ceil _ ps hps⟩

/-- Witness for C7 at a concrete input: a two-job store listed with the order
    key, pageSize 10. -/
theorem c7_list_jobs_pipeline_witness :
    0 < 10 ∧
    (listJobs Job.order [jobEleven, jobTen] "" "all" 1 10).jobs =
      ((sortByKey Job.order (searchFiltered "" (statusFiltered "all" [jobEleven, jobTen]))).drop
        0).take 10 :=
  ⟨by decide,
    (c7_list_jobs_pipeline Job.order [jobEleven, jobTen] "" "all" 1 10 (by decide)).1⟩

/-- Claim C8: the server-side search parameter is a case-insensitive prefix
    match, not a substring match: with the whole result on one page, a job is
    returned iff it passes the status filter and its lowercased title or slug
    starts with the lowercased search string, and a candidate iff it passes the
    stage filter and its lowercased name or email starts with it; a record whose
    field merely contains the search string in the interior is excluded. -/
theorem c8_prefix_not_substring {κ : Type} [LinearOrder κ] (key : Job → κ) (db : List Job)
    (cdb : List Candidate) (search status stage : String) (ps : Nat)
    (hs : search ≠ "") (hpj : db.length ≤ ps) (hpc : cdb.length ≤ ps) :
    (∀ j : Job, j ∈ (listJobs key db search status 1 ps).jobs ↔
      (j ∈ db ∧ (status = "all" ∨ j.status = status)) ∧
        (j.title.toLower.startsWith search.toLower = true ∨
         j.slug.toLower.startsWith search.toLower = true)) ∧
    (∀ c : Candidate, c ∈ (listCandidates cdb search stage 1 ps).candidates ↔
      (c ∈ cdb ∧ (stage = "all" ∨ c.stage = stage)) ∧
        (c.name.toLower.startsWith search.toLower = true ∨
         c.email.toLower.startsWith search.toLower = true)) := by
  constructor
  · intro j
    rw [listJobs_jobs_eq]
    have h0 : (1 - 1) * ps = 0 := by simp
    rw [h0, List.drop_zero]
    have hlen : (sortByKey key (searchFiltered search (statusFiltered status db))).length ≤ ps := by
      rw [(sortByKey_perm key _).length_eq]
      exact le_trans (List.Sublist.length_le
        ((searchFiltered_sublist _ _).trans (statusFiltered_sublist _ _))) hpj
    rw [List.take_of_length_le hlen, (sortByKey_perm key _).mem_iff,
      mem_searchFiltered _ _ _ hs, mem_statusFiltered]
    unfold jobMatchesSearch
    rw [Bool.or_eq_true]
  · intro c
    rw [listCandidates_candidates_eq]
    have h0 : (1 - 1) * ps = 0 := by simp
    rw [h0, List.drop_zero]
    have hlen : (candidateSearchFiltered search (stageFiltered stage cdb)).length ≤ ps :=
      le_trans (List.Sublist.length_le
        ((candidateSearchFiltered_sublist _ _).trans (stageFiltered_sublist _ _))) hpc
    rw [List.take_of_length_le hlen, mem_candidateSearchFiltered _ _ _ hs, mem_stageFiltered]
    unfold candidateMatchesSearch
    rw [Bool.or_eq_true]

/-- Witness for C8 at a concrete input: searching "back" over the two-job store
    returns exactly the job whose slug starts with "back"; membership of jobTen
    in the result follows from the equivalence. -/
theorem c8_prefix_not_substring_witness :
    ("back" : String) ≠ "" ∧
    (∀ j : Job, j ∈ (listJobs Job.order [jobTen, jobEleven] "back" "all" 1 10).jobs ↔
      (j ∈ [jobTen, jobEleven] ∧ (("all" : String) = "all" ∨ j.status = "all")) ∧
        (j.title.toLower.startsWith ("back" : String).toLower = true ∨
         j.slug.toLower.startsWith ("back" : String).toLower = true)) :=
  ⟨by decide,
    (c8_prefix_not_substring Job.order [jobTen, jobEleven] [avaApplied] "back" "all" "all" 10
      (by decide) (by decide) (by decide)).1⟩

/-- Claim C9: with a fixed filter and no intervening writes, the reported total
    equals the sum of the lengths of the totalPages-many returned pages, and no
    record appears in two different pages — for list-jobs and for
    list-candidates. -/
theorem c9_pagination_invariant {κ : Type} [LinearOrder κ] (key : Job → κ) (db : List Job)
    (cdb : List Candidate) (search status stage : String) (ps : Nat) (hps : 0 < ps)
    (hnj : (db.map Job.id).Nodup) (hnc : (cdb.map Candidate.id).Nodup) :
    (((List.range ((listJobs key db search status 1 ps).totalPages)).map
        fun p => (listJobs key db search status (p + 1) ps).jobs.length)).sum =
      (listJobs key db search status 1 ps).total ∧
    (∀ p q, p < (listJobs key db search status 1 ps).totalPages →
        q < (listJobs key db search status 1 ps).totalPages → p ≠ q →
        ∀ j, j ∈ (listJobs key db search status (p + 1) ps).jobs →
          j ∉ (listJobs key db search status (q + 1) ps).jobs) ∧
    (((List.range ((listCandidates cdb search stage 1 ps).totalPages)).map
        fun p => (listCandidates cdb search stage (p + 1) ps).candidates.length)).sum =
      (listCandidates cdb search stage 1 ps).total ∧
    (∀ p q, p < (listCandidates cdb search stage 1 ps).totalPages →
        q < (listCandidates cdb search stage 1 ps).totalPages → p ≠ q →
        ∀ c, c ∈ (listCandidates cdb search stage (p + 1) ps).candidates →
          c ∉ (listCandidates cdb search stage (q + 1) ps).candidates) := by
  have hdbJ : db.Nodup := List.Nodup.of_map _ hnj
  have hfilJ : (searchFiltered search (statusFiltered status db)).Nodup :=
    List.Sublist.nodup ((searchFiltered_sublist _ _).trans (statusFiltered_sublist _ _)) hdbJ
  have hsortNd : (sortByKey key (searchFiltered search (statusFiltered status db))).Nodup :=
    ((sortByKey_perm key _).nodup_iff).mpr hfilJ
  have hlenJ : (sortByKey key (searchFiltered search (statusFiltered status db))).length =
      (searchFiltered search (statusFiltered status db)).length :=
    (sortByKey_perm key _).length_eq
  obtain ⟨hsumJ, hdisjJ⟩ :=
    pages_partition (sortByKey key (searchFiltered search (statusFiltered status db))) ps hps
      hsortNd
  rw [hlenJ] at hsumJ hdisjJ
  have hdbC : cdb.Nodup := List.Nodup.of_map _ hnc
  have hfilC : (candidateSearchFiltered search (stageFiltered stage cdb)).Nodup :=
    List.Sublist.nodup ((candidateSearchFiltered_sublist _ _).trans (stageFiltered_sublist _ _))
      hdbC
  obtain ⟨hsumC, hdisjC⟩ :=
    pages_partition (candidateSearchFiltered search (stageFiltered stage cdb)) ps hps hfilC
  exact ⟨hsumJ, fun p q hp hq hpq j hjp => hdisjJ p q hp hq hpq j hjp,
    hsumC, fun p q hp hq hpq c hcp => hdisjC p q hp hq hpq c hcp⟩

/-- Witness for C9 at a concrete input: the two-job and one-candidate stores
    with pageSize 1, so the jobs listing has two pages. -/
theorem c9_pagination_invariant_witness :
    0 < 1 ∧ ([jobTen, jobEleven].map Job.id).Nodup ∧ ([avaApplied].map Candidate.id).Nodup ∧
    (((List.range ((listJobs Job.order [jobTen, jobEleven] "" "all" 1 1).totalPages)).map
        fun p => (listJobs Job.order [jobTen, jobEleven] "" "all" (p + 1) 1).jobs.length)).sum =
      (listJobs Job.order [jobTen, jobEleven] "" "all" 1 1).total :=
  ⟨by decide, by decide, by decide,
    (c9_pagination_invariant Job.order [jobTen, jobEleven] [avaApplied] "" "all" "all" 1
      (by decide) (by decide) (by decide)).1⟩

end TalentFlow
